import Mathlib

/-!
Verification of the unity-mcp-wsl2 test-orchestration client.

This file gives a shallow embedding of the Python sources under
`src/Server/tools/` and `src/MCPForUnity/UnityMcpServer~/src/tools/`:
the value normalizers (`coerce_int`, `coerce_bool`, `coerce_string_list`,
`combine_string_lists`), the command payload builders of `run_tests`
(both the MCPForUnity copy and the Server copy) and `rerun_failed_tests`,
and the polling state machine `wait_for_run_completion`.

Modelling conventions:
* Python values flowing into the normalizers are modelled by the `PyVal`
  inductive (`None`, `bool`, `int`, `str`, `list`).  Python floats are not
  modelled; numeric-string parsing (`int(float(s))`) is modelled with exact
  decimal arithmetic (optional sign, digits, optional fractional part,
  truncation toward zero).  Exponent forms, underscores in literals and
  float rounding/overflow are outside the model.
* Python dicts appearing as command responses are modelled structurally;
  a key that is absent and a key that is present with value `None` are
  both modelled as `Option.none`.
* The payload dict built by the orchestrators is modelled as an ordered
  association list `List (String × PyVal)` so that "key omitted" and
  "key present with null/empty value" are distinguishable.
* Wall-clock time (`time.monotonic()`) is modelled by rational-valued
  clock reads supplied by the environment: `clockErr i` is the reading
  taken inside the `except` branch of iteration `i`, `clockNow i` the
  reading taken at iteration `i`'s deadline check.
* The unbounded `while True` loop is modelled with explicit fuel; running
  out of fuel yields the distinguished outcome `fuelOut`.
-/

namespace UnityMcp

/-- Python-like dynamic value (no float: see module comment). -/
inductive PyVal where
  | none : PyVal
  | bool : Bool → PyVal
  | int : Int → PyVal
  | str : String → PyVal
  | list : List PyVal → PyVal

mutual

/-- Python `repr` for the modelled values (`str` of a list shows quoted elements). -/
def pyRepr : PyVal → String
  | PyVal.none => "None"
  | PyVal.bool true => "True"
  | PyVal.bool false => "False"
  | PyVal.int n => toString n
  | PyVal.str s => "'" ++ s ++ "'"
  | PyVal.list xs => "[" ++ pyReprInner xs ++ "]"

/-- Comma-joined `repr`s of list elements. -/
def pyReprInner : List PyVal → String
  | [] => ""
  | [x] => pyRepr x
  | x :: y :: xs => pyRepr x ++ ", " ++ pyReprInner (y :: xs)

end

/-- Python `str()`: identical to `repr` except on strings themselves. -/
def pyStr : PyVal → String
  | PyVal.str s => s
  | v => pyRepr v

/-- Python `str.strip()`: drop leading and trailing whitespace (structural
list recursion, so that the kernel can evaluate it). -/
def pyStrip (s : String) : String :=
  String.mk (((s.toList.dropWhile Char.isWhitespace).reverse.dropWhile Char.isWhitespace).reverse)

/-- Python `str.lower()` on the modelled (ASCII) strings. -/
def pyLower (s : String) : String := String.mk (s.toList.map Char.toLower)

/-- Parse the integer part of a decimal literal (digits, optional `.` and
fraction digits), i.e. the value of Python `int(float(s))` on the unsigned
part; `Option.none` models an unparsable string (ValueError). -/
def parseDecimalTrunc (cs : List Char) : Option Nat :=
  let ip := cs.takeWhile Char.isDigit
  let rest := cs.dropWhile Char.isDigit
  match rest with
  | [] => if ip = [] then Option.none else some (ip.foldl (fun a c => a * 10 + (c.toNat - 48)) 0)
  | '.' :: fp =>
      if fp.all Char.isDigit ∧ (ip ≠ [] ∨ fp ≠ []) then
        some (ip.foldl (fun a c => a * 10 + (c.toNat - 48)) 0)
      else Option.none
  | _ => Option.none

/-- Model of Python `int(float(s))` on an already-stripped string:
optional sign, then a decimal literal; truncation toward zero. -/
def pyIntOfFloatStr (s : String) : Option Int :=
  match s.toList with
  | '+' :: cs => (parseDecimalTrunc cs).map (fun n => (n : Int))
  | '-' :: cs => (parseDecimalTrunc cs).map (fun n => -(n : Int))
  | cs => (parseDecimalTrunc cs).map (fun n => (n : Int))

/-- Embedding of `coerce_int(value, default)` (run_tests.py lines 61-76):
best-effort conversion to a positive integer; booleans are rejected,
non-positive and unparsable values fall back to the default. -/
def coerce_int (value : PyVal) (dflt : Option Int) : Option Int :=
  match value with
  | PyVal.none => dflt
  | PyVal.bool _ => dflt
  | PyVal.int n => if 0 < n then some n else dflt
  | v =>
    let s := pyStrip (pyStr v)
    let sl := pyLower s
    if sl = "" ∨ sl = "none" ∨ sl = "null" then dflt
    else
      match pyIntOfFloatStr s with
      | some k => if 0 < k then some k else dflt
      | Option.none => dflt

/-- Embedding of `coerce_bool(value, default)` (run_tests.py lines 79-92). -/
def coerce_bool (value : PyVal) (dflt : Option Bool) : Option Bool :=
  match value with
  | PyVal.none => dflt
  | PyVal.bool b => some b
  | PyVal.int n => some (n != 0)
  | v =>
    let text := pyLower (pyStrip (pyStr v))
    if text = "true" ∨ text = "1" ∨ text = "yes" ∨ text = "y" ∨ text = "on" then some true
    else if text = "false" ∨ text = "0" ∨ text = "no" ∨ text = "n" ∨ text = "off" then some false
    else dflt

/-- Embedding of the inner `_stringify` of `coerce_string_list`:
`str(item).strip()` with `None` and blanks mapped to absent. -/
def stringify : PyVal → Option String
  | PyVal.none => Option.none
  | v =>
    let t := pyStrip (pyStr v)
    if t = "" then Option.none else some t

/-- Order-preserving removal of duplicates against an accumulated `seen` set,
mirroring the `seen`/`unique` loop of `coerce_string_list`. -/
def dedupFirst : List String → List String → List String
  | [], _ => []
  | x :: xs, seen => if x ∈ seen then dedupFirst xs seen else x :: dedupFirst xs (x :: seen)

/-- The `items` list built by `coerce_string_list` before deduplication:
a trimmed single string, the stringified elements of an iterable with
blanks dropped, or a stringified bare scalar. -/
def csItems : PyVal → List String
  | PyVal.str s => (stringify (PyVal.str s)).toList
  | PyVal.list xs => xs.filterMap stringify
  | w => (stringify w).toList

/-- Embedding of `coerce_string_list(value)` (run_tests.py lines 95-130):
empty `items` and the final `unique or None` both yield absent. -/
def coerce_string_list (value : PyVal) : Option (List String) :=
  match value with
  | PyVal.none => Option.none
  | v =>
    if csItems v = [] then Option.none
    else if dedupFirst (csItems v) [] = [] then Option.none
    else some (dedupFirst (csItems v) [])

/-- Append the entries of one normalized list into the accumulated combined
list, skipping entries already present (the `seen` set of
`combine_string_lists` always equals the set of entries of `combined`). -/
def combineInto : List String → List String → List String
  | acc, [] => acc
  | acc, e :: rest => if e ∈ acc then combineInto acc rest else combineInto (acc ++ [e]) rest

/-- Embedding of `combine_string_lists(*values)` (run_tests.py lines 133-145). -/
def combine_string_lists (values : List PyVal) : Option (List String) :=
  let combined := values.foldl
    (fun acc v =>
      match coerce_string_list v with
      | some l => if l = [] then acc else combineInto acc l
      | Option.none => acc)
    []
  if combined = [] then Option.none else some combined

/-- Lookup of a key in an ordered association-list payload (first match). -/
def lookupKey (k : String) : List (String × PyVal) → Option PyVal
  | [] => Option.none
  | (a, v) :: rest => if a = k then some v else lookupKey k rest

/-- List-of-strings payload value. -/
def strListVal (l : List String) : PyVal := PyVal.list (l.map PyVal.str)

/-- Model of `if filtered: params[key] = filtered` — the key is added only
when the normalized list is truthy (present and non-empty). -/
def addStrList (key : String) (v : Option (List String)) (p : List (String × PyVal)) :
    List (String × PyVal) :=
  match v with
  | some l => if l = [] then p else p ++ [(key, strListVal l)]
  | Option.none => p

/-- Payload built by the MCPForUnity copy of `run_tests`
(MCPForUnity/UnityMcpServer~/src/tools/run_tests.py lines 268-291).
`waitForCompletion` is hardcoded to `False`. -/
def mcpRunTestsParams (mode : String) (timeout_seconds : PyVal)
    (test_names tests group_names category_names categories assembly_names assemblies : PyVal) :
    List (String × PyVal) :=
  let p0 : List (String × PyVal) := [("mode", PyVal.str mode)]
  let p1 :=
    match coerce_int timeout_seconds Option.none with
    | some ts => p0 ++ [("timeoutSeconds", PyVal.int ts)]
    | Option.none => p0
  let p2 := p1 ++ [("waitForCompletion", PyVal.bool false)]
  let p3 := addStrList "testNames" (combine_string_lists [test_names, tests]) p2
  let p4 := addStrList "groupNames" (coerce_string_list group_names) p3
  let p5 := addStrList "categoryNames" (combine_string_lists [category_names, categories]) p4
  addStrList "assemblyNames" (combine_string_lists [assembly_names, assemblies]) p5

/-- Payload built by the Server copy of `run_tests`
(Server/tools/run_tests.py lines 160-183).  This copy forwards the coerced
caller flag: `wait = coerce_bool(wait_for_completion, default=True);
if wait is not None: params["waitForCompletion"] = wait`. -/
def serverRunTestsParams (mode : String) (timeout_seconds wait_for_completion : PyVal)
    (test_names tests group_names category_names categories assembly_names assemblies : PyVal) :
    List (String × PyVal) :=
  let p0 : List (String × PyVal) := [("mode", PyVal.str mode)]
  let p1 :=
    match coerce_int timeout_seconds Option.none with
    | some ts => p0 ++ [("timeoutSeconds", PyVal.int ts)]
    | Option.none => p0
  let p2 :=
    match coerce_bool wait_for_completion (some true) with
    | some w => p1 ++ [("waitForCompletion", PyVal.bool w)]
    | Option.none => p1
  let p3 := addStrList "testNames" (combine_string_lists [test_names, tests]) p2
  let p4 := addStrList "groupNames" (coerce_string_list group_names) p3
  let p5 := addStrList "categoryNames" (combine_string_lists [category_names, categories]) p4
  addStrList "assemblyNames" (combine_string_lists [assembly_names, assemblies]) p5

/-- Payload built by `rerun_failed_tests`
(Server/tools/rerun_failed_tests.py lines 37-47): `waitForCompletion` is
hardcoded to `False`; the coerced caller flag only controls client-side
waiting afterwards. -/
def rerunFailedTestsParams (run_id : Option String) (timeout_seconds : PyVal) :
    List (String × PyVal) :=
  let p0 : List (String × PyVal) :=
    match run_id with
    | some rid => if rid = "" then [] else [("runId", PyVal.str rid)]
    | Option.none => []
  let p1 := p0 ++ [("waitForCompletion", PyVal.bool false)]
  match coerce_int timeout_seconds Option.none with
  | some t => p1 ++ [("timeoutSeconds", PyVal.int t)]
  | Option.none => p1

/-- Terminal-state vocabulary (run_tests.py line 47). -/
def FINAL_STATES : List String := ["completed", "failed", "canceled", "cancelled", "faulted"]

/-- Poll interval in seconds (run_tests.py line 48). -/
def POLL_INTERVAL_SECONDS : ℚ := 1 / 2

/-- Throttle interval for progress/diagnostic logging (run_tests.py line 49). -/
def PROGRESS_LOG_INTERVAL : ℚ := 5

/-- Default client-side wait timeout (run_tests.py line 50). -/
def DEFAULT_TIMEOUT_SECONDS : Int := 600

/-- Structural model of the run-status / run-result dicts read by the
poller.  `Option.none` models both an absent key and a key explicitly
mapped to `None` (the poller never distinguishes them for these fields,
except `setdefault`, whose absent-key behavior is the one modelled). -/
structure RunData where
  runId : Option String := Option.none
  mode : Option String := Option.none
  state : Option String := Option.none
  summary : Option PyVal := Option.none
  results : Option PyVal := Option.none

/-- Outcome of one transport call (`async_send_with_unity_instance`):
an exception, a non-dict return value, or a dict with a truthy/falsy
`success` entry, optional `error`/`message` strings and optional `data`. -/
inductive CallOutcome where
  | exn : CallOutcome
  | nondict : CallOutcome
  | resp : Bool → Option String → Option String → Option RunData → CallOutcome

/-- The environment the poller observes: the outcome of the `i`-th
`get_test_run_status` query, the outcome of the `j`-th
`get_test_run_result` query, the monotonic-clock readings of each
iteration (`clockErr` inside the except branch, `clockNow` at the
deadline check), and the reading taken at entry (`start_time`). -/
structure PollEnv where
  status : Nat → CallOutcome
  result : Nat → CallOutcome
  clockErr : Nat → ℚ
  clockNow : Nat → ℚ
  start : ℚ

/-- Mutable loop state of `wait_for_run_completion`: the iteration index,
the number of result queries issued so far, `last_snapshot`, `last_log`,
and the (newest-first) trace of emitted log timestamps. -/
structure LoopState where
  iter : Nat
  rIdx : Nat
  lastSnapshot : Option RunData
  lastLog : ℚ
  logs : List ℚ

/-- Initial loop state (`last_snapshot = None`, `last_log = 0.0`). -/
def initState : LoopState := ⟨0, 0, Option.none, 0, []⟩

/-- Python `x or y` on an optional string (absent and empty are falsy). -/
def pyOr (a : Option String) (b : String) : String :=
  match a with
  | some s => if s = "" then b else s
  | Option.none => b

/-- Python substring containment `needle in hay`. -/
def containsSub (hay needle : String) : Bool := decide (List.IsInfix needle.toList hay.toList)

/-- The lowered state string of a snapshot: `(snapshot.get("state") or "").lower()`. -/
def snapStateStr (snap : RunData) : String := pyLower (pyOr snap.state "")

/-- Whether a snapshot's state is in the terminal vocabulary. -/
def isTerminalSnap (snap : RunData) : Bool := FINAL_STATES.contains (snapStateStr snap)

/-- Python `data.setdefault("state", s)` on the result dict: the state is
filled in from the snapshot only when the result omits it. -/
def setdefaultState (d : RunData) (s : Option String) : RunData :=
  match d.state with
  | some _ => d
  | Option.none => { d with state := s }

/-- The degraded snapshot-only result built when detailed results are
unavailable (run_tests.py lines 205-211). -/
def snapshotFallback (snap : RunData) (runId : String) : RunData :=
  { runId := some (pyOr snap.runId runId)
    mode := snap.mode
    state := snap.state
    summary := snap.summary
    results := Option.none }

/-- The lowered error text of an unsuccessful status response:
`(resp.get("error") or resp.get("message") or "").lower()`. -/
def errorText (e m : Option String) : String := pyLower (pyOr e (pyOr m ""))

/-- Whether error text signals that the run is no longer tracked. -/
def isNotFoundText (t : String) : Bool := containsSub t "not found" || containsSub t "no active"

/-- Python `if deadline and now >= deadline` (a `None` or `0.0` deadline
is falsy and never fires). -/
def deadlineHit (deadline : Option ℚ) (now : ℚ) : Bool :=
  match deadline with
  | Option.none => false
  | some d => if d = 0 then false else decide (d ≤ now)

/-- Throttled log emission: log and update `last_log` only when at least
`PROGRESS_LOG_INTERVAL` elapsed since the last log. -/
def maybeLog (now : ℚ) (st : LoopState) : LoopState :=
  if st.lastLog + PROGRESS_LOG_INTERVAL ≤ now then
    { st with lastLog := now, logs := now :: st.logs }
  else st

/-- One step result: a returned dict, a raised `RunCompletionTimeout`
(carrying `last_snapshot` as passed to the constructor), a propagated
exception from an unguarded result query, or continuation into the next
iteration after sleeping the given number of seconds. -/
inductive StepRes where
  | done : RunData → LoopState → StepRes
  | timeout : Option RunData → LoopState → StepRes
  | raised : LoopState → StepRes
  | cont : ℚ → LoopState → StepRes

/-- The final loop state recorded in a step result. -/
def StepRes.state : StepRes → LoopState
  | StepRes.done _ st => st
  | StepRes.timeout _ st => st
  | StepRes.raised st => st
  | StepRes.cont _ st => st

/-- Advance into the next loop iteration. -/
def bump (st : LoopState) : LoopState := { st with iter := st.iter + 1 }

/-- Whether an unsuccessful dict status response triggers the
early-terminal fetch (run_tests.py lines 218-220); `rsp` carries the dict
structure of the status response (`none` when an exception was absorbed
or a non-dict was returned). -/
def earlyFlag : Option (Bool × Option String × Option String) → Bool
  | some (false, e, m) => isNotFoundText (errorText e m)
  | _ => false

/-- The part of the loop body from the deadline check (line 213) to the
sleep (line 237): deadline check first, then the early-terminal fetch for
"not found"/"no active" errors, then the throttled progress log and the
sleep; `now` is the clock reading taken at line 213. -/
def stepTail (env : PollEnv) (deadline : Option ℚ)
    (rsp : Option (Bool × Option String × Option String)) (now : ℚ) (st : LoopState) : StepRes :=
  if deadlineHit deadline now then StepRes.timeout st.lastSnapshot st
  else
    if earlyFlag rsp then
      match env.result st.rIdx with
      | CallOutcome.exn => StepRes.raised { st with rIdx := st.rIdx + 1 }
      | CallOutcome.resp true _ _ d =>
          StepRes.done (d.getD {}) { st with rIdx := st.rIdx + 1 }
      | _ =>
          StepRes.cont POLL_INTERVAL_SECONDS (bump (maybeLog now { st with rIdx := st.rIdx + 1 }))
    else
      StepRes.cont POLL_INTERVAL_SECONDS (bump (maybeLog now st))

/-- One full iteration of the `while True` body of
`wait_for_run_completion` (run_tests.py lines 173-237). -/
def step (env : PollEnv) (runId : String) (deadline : Option ℚ) (st : LoopState) : StepRes :=
  match env.status st.iter with
  | CallOutcome.exn =>
      stepTail env deadline Option.none (env.clockNow st.iter) (maybeLog (env.clockErr st.iter) st)
  | CallOutcome.nondict => stepTail env deadline Option.none (env.clockNow st.iter) st
  | CallOutcome.resp success err msg data =>
      if success then
        let snap := data.getD {}
        let st1 := { st with lastSnapshot := some snap }
        if isTerminalSnap snap then
          match env.result st1.rIdx with
          | CallOutcome.exn => StepRes.raised { st1 with rIdx := st1.rIdx + 1 }
          | CallOutcome.resp true _ _ rdata =>
              StepRes.done (setdefaultState (rdata.getD {}) snap.state)
                { st1 with rIdx := st1.rIdx + 1 }
          | _ =>
              StepRes.done (snapshotFallback snap runId) { st1 with rIdx := st1.rIdx + 1 }
        else stepTail env deadline (some (true, err, msg)) (env.clockNow st.iter) st1
      else stepTail env deadline (some (false, err, msg)) (env.clockNow st.iter) st

/-- Overall outcome of the wait: a returned result dict, a raised
`RunCompletionTimeout(run_id, timeout_seconds, last_snapshot)`, a
propagated exception, or fuel exhaustion (the loop is still running). -/
inductive PollOutcome where
  | ok : RunData → LoopState → PollOutcome
  | timeoutRaised : String → Int → Option RunData → LoopState → PollOutcome
  | raised : LoopState → PollOutcome
  | fuelOut : LoopState → PollOutcome

/-- The final loop state recorded in a poll outcome. -/
def PollOutcome.state : PollOutcome → LoopState
  | PollOutcome.ok _ st => st
  | PollOutcome.timeoutRaised _ _ _ st => st
  | PollOutcome.raised st => st
  | PollOutcome.fuelOut st => st

/-- Fuel-indexed iteration of the polling loop. -/
def runPollAux (env : PollEnv) (runId : String) (timeoutSeconds : Int)
    (deadline : Option ℚ) : Nat → LoopState → PollOutcome
  | 0, st => PollOutcome.fuelOut st
  | fuel + 1, st =>
      match step env runId deadline st with
      | StepRes.done d st' => PollOutcome.ok d st'
      | StepRes.timeout s st' => PollOutcome.timeoutRaised runId timeoutSeconds s st'
      | StepRes.raised st' => PollOutcome.raised st'
      | StepRes.cont _ st' => runPollAux env runId timeoutSeconds deadline fuel st'

/-- The armed deadline: `start_time + timeout_seconds if timeout_seconds
else None` (run_tests.py line 169). -/
def mkDeadline (env : PollEnv) (timeoutSeconds : Int) : Option ℚ :=
  if timeoutSeconds = 0 then Option.none else some (env.start + (timeoutSeconds : ℚ))

/-- Embedding of `wait_for_run_completion(ctx, unity_instance, run_id,
timeout_seconds)` (run_tests.py lines 163-237); an empty run id raises
`ValueError` at entry. -/
def wait_for_run_completion (env : PollEnv) (runId : String) (timeoutSeconds : Int)
    (fuel : Nat) : PollOutcome :=
  if runId = "" then PollOutcome.raised initState
  else runPollAux env runId timeoutSeconds (mkDeadline env timeoutSeconds) fuel initState

/-- Whether a status outcome is a structurally successful response whose
state is terminal (the trigger of run_tests.py line 192). -/
def statusTerminalSuccess (o : CallOutcome) : Bool :=
  match o with
  | CallOutcome.resp true _ _ d => isTerminalSnap (d.getD {})
  | _ => false

/-- Whether a status outcome is a structurally unsuccessful response whose
error text signals the run is no longer tracked (run_tests.py line 220). -/
def statusNotFound (o : CallOutcome) : Bool :=
  match o with
  | CallOutcome.resp false e m _ => isNotFoundText (errorText e m)
  | _ => false

/-- The snapshot data extracted from a structurally successful status
response (`status_resp.get("data") or {}`), absent otherwise. -/
def statusSuccData (o : CallOutcome) : Option RunData :=
  match o with
  | CallOutcome.resp true _ _ d => some (d.getD {})
  | _ => Option.none

/-- Evolution of `last_snapshot` across one status observation. -/
def nextSnap (env : PollEnv) (i : Nat) (acc : Option RunData) : Option RunData :=
  match statusSuccData (env.status i) with
  | some s => some s
  | Option.none => acc

/-- Evolution of `last_snapshot` across `n` status observations starting
at iteration `start`. -/
def snapAcc (env : PollEnv) : Nat → Nat → Option RunData → Option RunData
  | _, 0, acc => acc
  | start, n + 1, acc => snapAcc env (start + 1) n (nextSnap env start acc)

/-- The data of the last structurally successful status response among
polls `0..k`, absent when none was successful. -/
def lastObservedSnap (env : PollEnv) : Nat → Option RunData
  | 0 => statusSuccData (env.status 0)
  | k + 1 =>
      match statusSuccData (env.status (k + 1)) with
      | some s => some s
      | Option.none => lastObservedSnap env k

/-- An iteration at which the loop neither observes a terminal success,
nor a not-found error, nor an elapsed deadline — the loop is guaranteed
to continue past it. -/
def quietAt (env : PollEnv) (deadline : Option ℚ) (i : Nat) : Prop :=
  statusTerminalSuccess (env.status i) = false ∧ statusNotFound (env.status i) = false ∧
    deadlineHit deadline (env.clockNow i) = false

/-- Whether a result-query outcome is a dict with truthy `success`. -/
def resultFetchOk : CallOutcome → Bool
  | CallOutcome.resp true _ _ _ => true
  | _ => false

/-- Adjacent log timestamps (newest first) are at least one full
throttle interval apart. -/
def wellSpacedLogs (l : List ℚ) : Prop :=
  List.Chain' (fun a b => b + PROGRESS_LOG_INTERVAL ≤ a) l

/-- Invariant maintained by the loop's log bookkeeping: the emitted log
timestamps are throttle-spaced and `last_log` bounds the newest one. -/
def GoodLogs (st : LoopState) : Prop :=
  wellSpacedLogs st.logs ∧ ∀ hd, st.logs.head? = some hd → hd ≤ st.lastLog

/-- A snapshot whose state is terminal. -/
def snapCompleted : RunData := { state := some "completed" }

/-- A fully populated result dict. -/
def resultFull : RunData :=
  { runId := some "r1"
    state := some "Completed"
    summary := some (PyVal.str "sum")
    results := some (PyVal.list [PyVal.str "t1"]) }

/-- Environment whose first status poll is terminal and whose result
query returns the full result. -/
def envOkW : PollEnv :=
  { status := fun _ => CallOutcome.resp true Option.none Option.none (some snapCompleted)
    result := fun _ => CallOutcome.resp true Option.none Option.none (some resultFull)
    clockErr := fun _ => 0
    clockNow := fun _ => 0
    start := 0 }

/-- Like `envOkW`, but the result query returns an unsuccessful dict. -/
def envFallbackW : PollEnv :=
  { envOkW with result := fun _ => CallOutcome.resp false (some "boom") Option.none Option.none }

/-- Like `envOkW`, but the result query raises a transport exception. -/
def envRaisedX : PollEnv :=
  { envOkW with result := fun _ => CallOutcome.exn }

/-- Environment whose status queries report the run as not found while the
clock is already past any small deadline; the result query would succeed. -/
def envNotFoundX : PollEnv :=
  { status := fun _ => CallOutcome.resp false (some "Run not found") Option.none Option.none
    result := fun _ => CallOutcome.resp true Option.none Option.none (some resultFull)
    clockErr := fun _ => 10
    clockNow := fun _ => 10
    start := 0 }

/-- Environment whose status queries always report a running state. -/
def envRunningW : PollEnv :=
  { status := fun _ => CallOutcome.resp true Option.none Option.none
      (some { state := some "running" })
    result := fun _ => CallOutcome.exn
    clockErr := fun _ => 10
    clockNow := fun _ => 10
    start := 0 }

/-- Environment whose transport always raises. -/
def envExnW : PollEnv :=
  { status := fun _ => CallOutcome.exn
    result := fun _ => CallOutcome.exn
    clockErr := fun _ => 0
    clockNow := fun _ => 0
    start := 0 }

theorem stringify_ne_empty {v : PyVal} {t : String} (h : stringify v = some t) : t ≠ "" := by
  cases v <;> simp only [stringify] at h
  case none => simp at h
  all_goals
    split at h
    · simp at h
    · rename_i hne
      obtain rfl := Option.some.inj h
      exact hne

theorem dedupFirst_mem {x : String} : ∀ {xs seen : List String},
    x ∈ dedupFirst xs seen → x ∈ xs := by
  intro xs
  induction xs with
  | nil => intro seen h; simp [dedupFirst] at h
  | cons y ys ih =>
      intro seen h
      simp only [dedupFirst] at h
      split at h
      · exact List.mem_cons_of_mem _ (ih h)
      · rcases List.mem_cons.mp h with rfl | h
        · exact List.mem_cons_self _ _
        · exact List.mem_cons_of_mem _ (ih h)

theorem dedupFirst_not_mem_seen {x : String} : ∀ {xs seen : List String},
    x ∈ dedupFirst xs seen → x ∉ seen := by
  intro xs
  induction xs with
  | nil => intro seen h; simp [dedupFirst] at h
  | cons y ys ih =>
      intro seen h
      simp only [dedupFirst] at h
      split at h
      · exact ih h
      · rcases List.mem_cons.mp h with rfl | h
        · assumption
        · intro hx
          exact ih h (List.mem_cons_of_mem _ hx)

theorem dedupFirst_nodup : ∀ (xs seen : List String), (dedupFirst xs seen).Nodup := by
  intro xs
  induction xs with
  | nil => intro seen; simp [dedupFirst]
  | cons y ys ih =>
      intro seen
      simp only [dedupFirst]
      split
      · exact ih seen
      · refine List.nodup_cons.mpr ⟨fun hy => ?_, ih (y :: seen)⟩
        exact dedupFirst_not_mem_seen hy (List.mem_cons_self _ _)

theorem coerce_string_list_eq_some {v : PyVal} {l : List String}
    (h : coerce_string_list v = some l) : l = dedupFirst (csItems v) [] ∧ l ≠ [] := by
  cases v <;> simp only [coerce_string_list] at h
  case none => simp at h
  all_goals
    split at h
    · simp at h
    · split at h
      · simp at h
      · rename_i hne
        obtain rfl := Option.some.inj h
        exact ⟨rfl, hne⟩

theorem csItems_ne_empty {v : PyVal} {x : String} (h : x ∈ csItems v) : x ≠ "" := by
  cases v <;> simp only [csItems] at h
  case list =>
      obtain ⟨a, _, ha⟩ := List.mem_filterMap.mp h
      exact stringify_ne_empty ha
  all_goals
    cases hx : stringify _ with
    | none => rw [hx] at h; simp at h
    | some t =>
        rw [hx] at h
        simp only [Option.toList_some, List.mem_singleton] at h
        subst h
        exact stringify_ne_empty hx

/-- C8: `coerce_string_list` yields absent for `None`, empty or all-blank
input (never an empty list); otherwise a list of trimmed non-empty strings
with duplicates removed preserving first occurrence; a single string trims
to a one-element list; a bare scalar becomes a singleton; and
`["a","a","b",""," c "]` maps to `["a","b","c"]`. -/
theorem claim_C8_coerce_string_list :
    coerce_string_list PyVal.none = Option.none ∧
    (∀ v : PyVal, coerce_string_list v ≠ some []) ∧
    (∀ s : String, pyStrip s = "" → coerce_string_list (PyVal.str s) = Option.none) ∧
    (∀ s : String, pyStrip s ≠ "" → coerce_string_list (PyVal.str s) = some [pyStrip s]) ∧
    (∀ (v : PyVal) (l : List String), coerce_string_list v = some l →
      l = dedupFirst (csItems v) [] ∧ l ≠ [] ∧ l.Nodup ∧ ∀ x ∈ l, x ≠ "") ∧
    (∀ n : Int, pyStrip (pyStr (PyVal.int n)) ≠ "" →
      coerce_string_list (PyVal.int n) = some [pyStrip (pyStr (PyVal.int n))]) ∧
    coerce_string_list
        (PyVal.list [PyVal.str "a", PyVal.str "a", PyVal.str "b", PyVal.str "", PyVal.str " c "]) =
      some ["a", "b", "c"] := by
  refine ⟨rfl, ?_, ?_, ?_, ?_, ?_, by decide⟩
  · intro v h
    obtain ⟨_, hne⟩ := coerce_string_list_eq_some h
    exact hne rfl
  · intro s h
    simp [coerce_string_list, csItems, stringify, pyStr, h]
  · intro s h
    simp [coerce_string_list, csItems, stringify, pyStr, h, dedupFirst]
  · intro v l h
    obtain ⟨rfl, hne⟩ := coerce_string_list_eq_some h
    exact ⟨rfl, hne, dedupFirst_nodup _ _, fun x hx => csItems_ne_empty (dedupFirst_mem hx)⟩
  · intro n h
    simp [coerce_string_list, csItems, stringify, h, dedupFirst]

theorem claim_C8_witness :
    coerce_string_list (PyVal.str " x ") = some [pyStrip " x "] ∧
    coerce_string_list (PyVal.int 7) = some [pyStrip (pyStr (PyVal.int 7))] :=
  ⟨claim_C8_coerce_string_list.2.2.2.1 " x " (by decide),
   claim_C8_coerce_string_list.2.2.2.2.2.1 7 (by decide)⟩

/-- C9: `coerce_int` returns the supplied default on booleans, non-positive
results and unparsable input, and the integer itself on positive integers
and numeric strings whose parsed truncated value is positive ("30" yields
30, True yields the default, -5 yields the default).  Totality of the Lean
function models "never raises"; numeric-string parsing is modelled with
exact decimal arithmetic (see module comment). -/
theorem claim_C9_coerce_int (dflt : Option Int) :
    (∀ b : Bool, coerce_int (PyVal.bool b) dflt = dflt) ∧
    (∀ n : Int, 0 < n → coerce_int (PyVal.int n) dflt = some n) ∧
    (∀ n : Int, n ≤ 0 → coerce_int (PyVal.int n) dflt = dflt) ∧
    (∀ (s : String) (k : Int), pyIntOfFloatStr (pyStrip s) = some k →
      ¬(pyLower (pyStrip s) = "" ∨ pyLower (pyStrip s) = "none" ∨ pyLower (pyStrip s) = "null") →
      coerce_int (PyVal.str s) dflt = if 0 < k then some k else dflt) ∧
    (∀ s : String, pyIntOfFloatStr (pyStrip s) = Option.none →
      coerce_int (PyVal.str s) dflt = dflt) ∧
    coerce_int (PyVal.str "30") dflt = some 30 ∧
    coerce_int (PyVal.bool true) dflt = dflt ∧
    coerce_int (PyVal.int (-5)) dflt = dflt := by
  refine ⟨fun b => rfl, ?_, ?_, ?_, ?_, rfl, rfl, rfl⟩
  · intro n h
    simp [coerce_int, h]
  · intro n h
    simp only [coerce_int]
    rw [if_neg (by omega)]
  · intro s k hp hs
    simp only [coerce_int, pyStr]
    rw [if_neg hs, hp]
  · intro s hp
    simp only [coerce_int, pyStr]
    split
    · rfl
    · rw [hp]

theorem claim_C9_witness :
    coerce_int (PyVal.int 5) Option.none = some 5 ∧
    coerce_int (PyVal.int 0) (some 9) = some 9 ∧
    coerce_int (PyVal.str "2.9") Option.none = (if 0 < (2 : Int) then some 2 else Option.none) ∧
    coerce_int (PyVal.str "abc") (some 9) = some 9 :=
  ⟨(claim_C9_coerce_int Option.none).2.1 5 (by decide),
   (claim_C9_coerce_int (some 9)).2.2.1 0 (by decide),
   (claim_C9_coerce_int Option.none).2.2.2.1 "2.9" 2 (by decide) (by decide),
   (claim_C9_coerce_int (some 9)).2.2.2.2.1 "abc" (by decide)⟩

theorem lookupKey_append (k : String) (l1 l2 : List (String × PyVal)) :
    lookupKey k (l1 ++ l2) =
      match lookupKey k l1 with
      | some v => some v
      | Option.none => lookupKey k l2 := by
  induction l1 with
  | nil => rfl
  | cons a rest ih =>
      obtain ⟨a1, a2⟩ := a
      simp only [List.cons_append, lookupKey]
      split
      · rfl
      · exact ih

theorem lookupKey_addStrList_ne {key k : String} (h : key ≠ k) (o : Option (List String))
    (p : List (String × PyVal)) : lookupKey k (addStrList key o p) = lookupKey k p := by
  cases o with
  | none => rfl
  | some l =>
      simp only [addStrList]
      split
      · rfl
      · rw [lookupKey_append]
        cases lookupKey k p <;> simp [lookupKey, h]

theorem mem_addStrList {k key : String} {v : PyVal} {o : Option (List String)}
    {p : List (String × PyVal)} (h : (k, v) ∈ addStrList key o p) :
    (k, v) ∈ p ∨ ∃ l, o = some l ∧ l ≠ [] ∧ k = key ∧ v = strListVal l := by
  cases o with
  | none => exact Or.inl h
  | some l =>
      simp only [addStrList] at h
      split at h
      · exact Or.inl h
      · rename_i hl
        rcases List.mem_append.mp h with h | h
        · exact Or.inl h
        · simp only [List.mem_singleton, Prod.mk.injEq] at h
          exact Or.inr ⟨l, rfl, hl, h.1, h.2⟩

theorem strListVal_ne {l : List String} (hl : l ≠ []) :
    strListVal l ≠ PyVal.none ∧ strListVal l ≠ PyVal.list [] := by
  constructor
  · simp [strListVal]
  · simp [strListVal, hl]

/-- C1 counterexample: the Server copy of `run_tests`
(src/Server/tools/run_tests.py lines 165-167) does not force
`waitForCompletion=false`: invoked with `wait_for_completion=True`
(its default), the submitted payload carries `waitForCompletion=True`. -/
theorem claim_C1_counterexample :
    lookupKey "waitForCompletion"
        (serverRunTestsParams "EditMode" PyVal.none (PyVal.bool true) PyVal.none PyVal.none
          PyVal.none PyVal.none PyVal.none PyVal.none PyVal.none) =
      some (PyVal.bool true) := rfl

/-- C1 (amended): the MCPForUnity `run_tests` and `rerun_failed_tests`
always submit `waitForCompletion=false` regardless of the caller-supplied
`wait_for_completion` (which only controls client-side polling), while the
Server copy of `run_tests` instead forwards the coerced caller flag
(default true) into the payload and never polls. -/
theorem claim_C1_amended :
    (∀ mode ts tn t gn cn c an a,
      lookupKey "waitForCompletion" (mcpRunTestsParams mode ts tn t gn cn c an a) =
        some (PyVal.bool false)) ∧
    (∀ rid ts,
      lookupKey "waitForCompletion" (rerunFailedTestsParams rid ts) = some (PyVal.bool false)) ∧
    (∀ mode ts w tn t gn cn c an a,
      lookupKey "waitForCompletion" (serverRunTestsParams mode ts w tn t gn cn c an a) =
        (coerce_bool w (some true)).map PyVal.bool) := by
  refine ⟨?_, ?_, ?_⟩
  · intro mode ts tn t gn cn c an a
    simp only [mcpRunTestsParams]
    rw [lookupKey_addStrList_ne (by decide), lookupKey_addStrList_ne (by decide),
        lookupKey_addStrList_ne (by decide), lookupKey_addStrList_ne (by decide)]
    cases coerce_int ts Option.none <;> simp [lookupKey_append, lookupKey]
  · intro rid ts
    simp only [rerunFailedTestsParams]
    cases coerce_int ts Option.none <;> rcases rid with _ | rid <;>
      first
        | (simp [lookupKey_append, lookupKey]; done)
        | (rcases eq_or_ne rid "" with h | h <;> simp [lookupKey_append, lookupKey, h])
  · intro mode ts w tn t gn cn c an a
    simp only [serverRunTestsParams]
    rw [lookupKey_addStrList_ne (by decide), lookupKey_addStrList_ne (by decide),
        lookupKey_addStrList_ne (by decide), lookupKey_addStrList_ne (by decide)]
    cases coerce_bool w (some true) <;> cases coerce_int ts Option.none <;>
      simp [lookupKey_append, lookupKey]

theorem addStrList_none (key : String) (p : List (String × PyVal)) :
    addStrList key Option.none p = p := rfl

/-- C7: in both copies of `run_tests`, every optional field whose
normalized value is absent or empty is omitted from the submitted payload
entirely: no payload entry ever carries a null or empty-list value, and an
absent normalization leaves the key out of the payload altogether. -/
theorem claim_C7_payload_omission :
    (∀ mode ts tn t gn cn c an a k v,
      (k, v) ∈ mcpRunTestsParams mode ts tn t gn cn c an a →
      v ≠ PyVal.none ∧ v ≠ PyVal.list []) ∧
    (∀ mode ts w tn t gn cn c an a k v,
      (k, v) ∈ serverRunTestsParams mode ts w tn t gn cn c an a →
      v ≠ PyVal.none ∧ v ≠ PyVal.list []) ∧
    (∀ mode ts tn t gn cn c an a, coerce_int ts Option.none = Option.none →
      lookupKey "timeoutSeconds" (mcpRunTestsParams mode ts tn t gn cn c an a) = Option.none) ∧
    (∀ mode ts tn t gn cn c an a, combine_string_lists [tn, t] = Option.none →
      lookupKey "testNames" (mcpRunTestsParams mode ts tn t gn cn c an a) = Option.none) ∧
    (∀ mode ts tn t gn cn c an a, coerce_string_list gn = Option.none →
      lookupKey "groupNames" (mcpRunTestsParams mode ts tn t gn cn c an a) = Option.none) ∧
    (∀ mode ts tn t gn cn c an a, combine_string_lists [cn, c] = Option.none →
      lookupKey "categoryNames" (mcpRunTestsParams mode ts tn t gn cn c an a) = Option.none) ∧
    (∀ mode ts tn t gn cn c an a, combine_string_lists [an, a] = Option.none →
      lookupKey "assemblyNames" (mcpRunTestsParams mode ts tn t gn cn c an a) = Option.none) ∧
    (∀ mode ts w tn t gn cn c an a, coerce_int ts Option.none = Option.none →
      lookupKey "timeoutSeconds" (serverRunTestsParams mode ts w tn t gn cn c an a) =
        Option.none) ∧
    (∀ mode ts w tn t gn cn c an a, combine_string_lists [tn, t] = Option.none →
      lookupKey "testNames" (serverRunTestsParams mode ts w tn t gn cn c an a) = Option.none) ∧
    (∀ mode ts w tn t gn cn c an a, coerce_string_list gn = Option.none →
      lookupKey "groupNames" (serverRunTestsParams mode ts w tn t gn cn c an a) = Option.none) ∧
    (∀ mode ts w tn t gn cn c an a, combine_string_lists [cn, c] = Option.none →
      lookupKey "categoryNames" (serverRunTestsParams mode ts w tn t gn cn c an a) =
        Option.none) ∧
    (∀ mode ts w tn t gn cn c an a, combine_string_lists [an, a] = Option.none →
      lookupKey "assemblyNames" (serverRunTestsParams mode ts w tn t gn cn c an a) =
        Option.none) := by
  refine ⟨?_, ?_, ?_, ?_, ?_, ?_, ?_, ?_, ?_, ?_, ?_, ?_⟩
  · intro mode ts tn t gn cn c an a k v h
    simp only [mcpRunTestsParams] at h
    rcases mem_addStrList h with h1 | ⟨l, _, hl, _, rfl⟩
    · rcases mem_addStrList h1 with h2 | ⟨l, _, hl, _, rfl⟩
      · rcases mem_addStrList h2 with h3 | ⟨l, _, hl, _, rfl⟩
        · rcases mem_addStrList h3 with h4 | ⟨l, _, hl, _, rfl⟩
          · cases hc : coerce_int ts Option.none <;> simp [hc] at h4 <;>
              exact ⟨by rintro rfl; simp at h4, by rintro rfl; simp at h4⟩
          · exact strListVal_ne hl
        · exact strListVal_ne hl
      · exact strListVal_ne hl
    · exact strListVal_ne hl
  · intro mode ts w tn t gn cn c an a k v h
    simp only [serverRunTestsParams] at h
    rcases mem_addStrList h with h1 | ⟨l, _, hl, _, rfl⟩
    · rcases mem_addStrList h1 with h2 | ⟨l, _, hl, _, rfl⟩
      · rcases mem_addStrList h2 with h3 | ⟨l, _, hl, _, rfl⟩
        · rcases mem_addStrList h3 with h4 | ⟨l, _, hl, _, rfl⟩
          · cases hb : coerce_bool w (some true) <;> cases hc : coerce_int ts Option.none <;>
              simp [hb, hc] at h4 <;>
              exact ⟨by rintro rfl; simp at h4, by rintro rfl; simp at h4⟩
          · exact strListVal_ne hl
        · exact strListVal_ne hl
      · exact strListVal_ne hl
    · exact strListVal_ne hl
  · intro mode ts tn t gn cn c an a h
    simp only [mcpRunTestsParams]
    rw [lookupKey_addStrList_ne (by decide), lookupKey_addStrList_ne (by decide),
        lookupKey_addStrList_ne (by decide), lookupKey_addStrList_ne (by decide), h]
    simp [lookupKey_append, lookupKey]
  · intro mode ts tn t gn cn c an a h
    simp only [mcpRunTestsParams]
    rw [lookupKey_addStrList_ne (by decide), lookupKey_addStrList_ne (by decide),
        lookupKey_addStrList_ne (by decide), h, addStrList_none]
    cases coerce_int ts Option.none <;> simp [lookupKey_append, lookupKey]
  · intro mode ts tn t gn cn c an a h
    simp only [mcpRunTestsParams]
    rw [lookupKey_addStrList_ne (by decide), lookupKey_addStrList_ne (by decide), h,
        addStrList_none, lookupKey_addStrList_ne (by decide)]
    cases coerce_int ts Option.none <;> simp [lookupKey_append, lookupKey]
  · intro mode ts tn t gn cn c an a h
    simp only [mcpRunTestsParams]
    rw [lookupKey_addStrList_ne (by decide), h, addStrList_none,
        lookupKey_addStrList_ne (by decide), lookupKey_addStrList_ne (by decide)]
    cases coerce_int ts Option.none <;> simp [lookupKey_append, lookupKey]
  · intro mode ts tn t gn cn c an a h
    simp only [mcpRunTestsParams]
    rw [h, addStrList_none, lookupKey_addStrList_ne (by decide),
        lookupKey_addStrList_ne (by decide), lookupKey_addStrList_ne (by decide)]
    cases coerce_int ts Option.none <;> simp [lookupKey_append, lookupKey]
  · intro mode ts w tn t gn cn c an a h
    simp only [serverRunTestsParams]
    rw [lookupKey_addStrList_ne (by decide), lookupKey_addStrList_ne (by decide),
        lookupKey_addStrList_ne (by decide), lookupKey_addStrList_ne (by decide), h]
    cases coerce_bool w (some true) <;> simp [lookupKey_append, lookupKey]
  · intro mode ts w tn t gn cn c an a h
    simp only [serverRunTestsParams]
    rw [lookupKey_addStrList_ne (by decide), lookupKey_addStrList_ne (by decide),
        lookupKey_addStrList_ne (by decide), h, addStrList_none]
    cases coerce_bool w (some true) <;> cases coerce_int ts Option.none <;>
      simp [lookupKey_append, lookupKey]
  · intro mode ts w tn t gn cn c an a h
    simp only [serverRunTestsParams]
    rw [lookupKey_addStrList_ne (by decide), lookupKey_addStrList_ne (by decide), h,
        addStrList_none, lookupKey_addStrList_ne (by decide)]
    cases coerce_bool w (some true) <;> cases coerce_int ts Option.none <;>
      simp [lookupKey_append, lookupKey]
  · intro mode ts w tn t gn cn c an a h
    simp only [serverRunTestsParams]
    rw [lookupKey_addStrList_ne (by decide), h, addStrList_none,
        lookupKey_addStrList_ne (by decide), lookupKey_addStrList_ne (by decide)]
    cases coerce_bool w (some true) <;> cases coerce_int ts Option.none <;>
      simp [lookupKey_append, lookupKey]
  · intro mode ts w tn t gn cn c an a h
    simp only [serverRunTestsParams]
    rw [h, addStrList_none, lookupKey_addStrList_ne (by decide),
        lookupKey_addStrList_ne (by decide), lookupKey_addStrList_ne (by decide)]
    cases coerce_bool w (some true) <;> cases coerce_int ts Option.none <;>
      simp [lookupKey_append, lookupKey]

theorem claim_C7_witness :
    (PyVal.str "EditMode" ≠ PyVal.none ∧ PyVal.str "EditMode" ≠ PyVal.list []) ∧
    lookupKey "testNames"
        (mcpRunTestsParams "EditMode" PyVal.none PyVal.none PyVal.none PyVal.none PyVal.none
          PyVal.none PyVal.none PyVal.none) = Option.none :=
  ⟨claim_C7_payload_omission.1 "EditMode" PyVal.none PyVal.none PyVal.none PyVal.none PyVal.none
      PyVal.none PyVal.none PyVal.none "mode" (PyVal.str "EditMode") (List.Mem.head _),
   claim_C7_payload_omission.2.2.2.1 "EditMode" PyVal.none PyVal.none PyVal.none PyVal.none
      PyVal.none PyVal.none PyVal.none PyVal.none rfl⟩

@[simp] theorem maybeLog_iter (now : ℚ) (st : LoopState) : (maybeLog now st).iter = st.iter := by
  unfold maybeLog; split <;> rfl

@[simp] theorem maybeLog_rIdx (now : ℚ) (st : LoopState) : (maybeLog now st).rIdx = st.rIdx := by
  unfold maybeLog; split <;> rfl

@[simp] theorem maybeLog_lastSnapshot (now : ℚ) (st : LoopState) :
    (maybeLog now st).lastSnapshot = st.lastSnapshot := by
  unfold maybeLog; split <;> rfl

@[simp] theorem bump_iter (st : LoopState) : (bump st).iter = st.iter + 1 := rfl

@[simp] theorem bump_rIdx (st : LoopState) : (bump st).rIdx = st.rIdx := rfl

@[simp] theorem bump_lastSnapshot (st : LoopState) : (bump st).lastSnapshot = st.lastSnapshot := rfl

theorem stepTail_cont (env : PollEnv) (dl : Option ℚ)
    (rsp : Option (Bool × Option String × Option String)) (now : ℚ) (st : LoopState)
    (hdl : deadlineHit dl now = false) (he : earlyFlag rsp = false) :
    stepTail env dl rsp now st = StepRes.cont POLL_INTERVAL_SECONDS (bump (maybeLog now st)) := by
  simp [stepTail, hdl, he]

theorem stepTail_timeout (env : PollEnv) (dl : Option ℚ)
    (rsp : Option (Bool × Option String × Option String)) (now : ℚ) (st : LoopState)
    (hdl : deadlineHit dl now = true) :
    stepTail env dl rsp now st = StepRes.timeout st.lastSnapshot st := by
  simp [stepTail, hdl]

theorem step_exn_eq (env : PollEnv) (runId : String) (dl : Option ℚ) (st : LoopState)
    (hs : env.status st.iter = CallOutcome.exn) :
    step env runId dl st =
      stepTail env dl Option.none (env.clockNow st.iter) (maybeLog (env.clockErr st.iter) st) := by
  unfold step; rw [hs]

theorem step_nondict_eq (env : PollEnv) (runId : String) (dl : Option ℚ) (st : LoopState)
    (hs : env.status st.iter = CallOutcome.nondict) :
    step env runId dl st = stepTail env dl Option.none (env.clockNow st.iter) st := by
  unfold step; rw [hs]

theorem step_nonterminal_eq (env : PollEnv) (runId : String) (dl : Option ℚ) (st : LoopState)
    {err msg : Option String} {data : Option RunData}
    (hs : env.status st.iter = CallOutcome.resp true err msg data)
    (hterm : isTerminalSnap (data.getD {}) = false) :
    step env runId dl st =
      stepTail env dl (some (true, err, msg)) (env.clockNow st.iter)
        { st with lastSnapshot := some (data.getD {}) } := by
  unfold step; rw [hs]; simp [hterm]

theorem step_fail_eq (env : PollEnv) (runId : String) (dl : Option ℚ) (st : LoopState)
    {err msg : Option String} {data : Option RunData}
    (hs : env.status st.iter = CallOutcome.resp false err msg data) :
    step env runId dl st =
      stepTail env dl (some (false, err, msg)) (env.clockNow st.iter) st := by
  unfold step; rw [hs]; rfl

theorem step_quiet (env : PollEnv) (runId : String) (dl : Option ℚ) (st : LoopState)
    (h : quietAt env dl st.iter) :
    ∃ st', step env runId dl st = StepRes.cont POLL_INTERVAL_SECONDS st' ∧
      st'.iter = st.iter + 1 ∧ st'.rIdx = st.rIdx ∧
      st'.lastSnapshot = nextSnap env st.iter st.lastSnapshot := by
  obtain ⟨h1, h2, h3⟩ := h
  cases hs : env.status st.iter with
  | exn =>
      rw [step_exn_eq env runId dl st hs, stepTail_cont env dl Option.none _ _ h3 rfl]
      exact ⟨_, rfl, by simp, by simp, by simp [nextSnap, statusSuccData, hs]⟩
  | nondict =>
      rw [step_nondict_eq env runId dl st hs, stepTail_cont env dl Option.none _ _ h3 rfl]
      exact ⟨_, rfl, by simp, by simp, by simp [nextSnap, statusSuccData, hs]⟩
  | resp success err msg data =>
      cases success with
      | true =>
          have hterm : isTerminalSnap (data.getD {}) = false := by rw [hs] at h1; exact h1
          rw [step_nonterminal_eq env runId dl st hs hterm,
              stepTail_cont env dl (some (true, err, msg)) _ _ h3 rfl]
          exact ⟨_, rfl, by simp, by simp, by simp [nextSnap, statusSuccData, hs]⟩
      | false =>
          have hnf : isNotFoundText (errorText err msg) = false := by rw [hs] at h2; exact h2
          rw [step_fail_eq env runId dl st hs,
              stepTail_cont env dl (some (false, err, msg)) _ _ h3 (by simp [earlyFlag, hnf])]
          exact ⟨_, rfl, by simp, by simp, by simp [nextSnap, statusSuccData, hs]⟩

theorem step_deadline (env : PollEnv) (runId : String) (dl : Option ℚ) (st : LoopState)
    (h1 : statusTerminalSuccess (env.status st.iter) = false)
    (h3 : deadlineHit dl (env.clockNow st.iter) = true) :
    ∃ st', step env runId dl st = StepRes.timeout (nextSnap env st.iter st.lastSnapshot) st' ∧
      st'.iter = st.iter ∧ st'.rIdx = st.rIdx := by
  cases hs : env.status st.iter with
  | exn =>
      rw [step_exn_eq env runId dl st hs, stepTail_timeout env dl Option.none _ _ h3]
      refine ⟨maybeLog (env.clockErr st.iter) st, ?_, by simp, by simp⟩
      simp [nextSnap, statusSuccData, hs]
  | nondict =>
      rw [step_nondict_eq env runId dl st hs, stepTail_timeout env dl Option.none _ _ h3]
      refine ⟨st, ?_, rfl, rfl⟩
      simp [nextSnap, statusSuccData, hs]
  | resp success err msg data =>
      cases success with
      | true =>
          have hterm : isTerminalSnap (data.getD {}) = false := by rw [hs] at h1; exact h1
          rw [step_nonterminal_eq env runId dl st hs hterm,
              stepTail_timeout env dl (some (true, err, msg)) _ _ h3]
          refine ⟨{ st with lastSnapshot := some (data.getD {}) }, ?_, rfl, rfl⟩
          simp [nextSnap, statusSuccData, hs]
      | false =>
          rw [step_fail_eq env runId dl st hs,
              stepTail_timeout env dl (some (false, err, msg)) _ _ h3]
          refine ⟨st, ?_, rfl, rfl⟩
          simp [nextSnap, statusSuccData, hs]

theorem step_terminal_ok (env : PollEnv) (runId : String) (dl : Option ℚ) (st : LoopState)
    {err msg re rm : Option String} {data rdata : Option RunData}
    (hs : env.status st.iter = CallOutcome.resp true err msg data)
    (ht : isTerminalSnap (data.getD {}) = true)
    (hr : env.result st.rIdx = CallOutcome.resp true re rm rdata) :
    step env runId dl st =
      StepRes.done (setdefaultState (rdata.getD {}) (data.getD {}).state)
        { st with lastSnapshot := some (data.getD {}), rIdx := st.rIdx + 1 } := by
  unfold step
  rw [hs]
  simp [ht, hr]

theorem step_terminal_fallback (env : PollEnv) (runId : String) (dl : Option ℚ) (st : LoopState)
    {err msg : Option String} {data : Option RunData} {o : CallOutcome}
    (hs : env.status st.iter = CallOutcome.resp true err msg data)
    (ht : isTerminalSnap (data.getD {}) = true)
    (hr : env.result st.rIdx = o) (hexn : o ≠ CallOutcome.exn) (ho : resultFetchOk o = false) :
    step env runId dl st =
      StepRes.done (snapshotFallback (data.getD {}) runId)
        { st with lastSnapshot := some (data.getD {}), rIdx := st.rIdx + 1 } := by
  unfold step
  rw [hs]
  cases o with
  | exn => exact absurd rfl hexn
  | nondict => simp [ht, hr]
  | resp b e m d =>
      cases b with
      | true => simp [resultFetchOk] at ho
      | false => simp [ht, hr]

theorem step_terminal_raised (env : PollEnv) (runId : String) (dl : Option ℚ) (st : LoopState)
    {err msg : Option String} {data : Option RunData}
    (hs : env.status st.iter = CallOutcome.resp true err msg data)
    (ht : isTerminalSnap (data.getD {}) = true)
    (hr : env.result st.rIdx = CallOutcome.exn) :
    step env runId dl st =
      StepRes.raised { st with lastSnapshot := some (data.getD {}), rIdx := st.rIdx + 1 } := by
  unfold step
  rw [hs]
  simp [ht, hr]

theorem runPollAux_succ (env : PollEnv) (runId : String) (T : Int) (dl : Option ℚ)
    (fuel : Nat) (st : LoopState) :
    runPollAux env runId T dl (fuel + 1) st =
      match step env runId dl st with
      | StepRes.done d st' => PollOutcome.ok d st'
      | StepRes.timeout s st' => PollOutcome.timeoutRaised runId T s st'
      | StepRes.raised st' => PollOutcome.raised st'
      | StepRes.cont _ st' => runPollAux env runId T dl fuel st' := rfl

theorem runPollAux_skip (env : PollEnv) (runId : String) (T : Int) (dl : Option ℚ) :
    ∀ (N fuel : Nat) (st : LoopState),
      (∀ i, st.iter ≤ i → i < st.iter + N → quietAt env dl i) →
      ∃ st', runPollAux env runId T dl (N + fuel) st = runPollAux env runId T dl fuel st' ∧
        st'.iter = st.iter + N ∧ st'.rIdx = st.rIdx ∧
        st'.lastSnapshot = snapAcc env st.iter N st.lastSnapshot := by
  intro N
  induction N with
  | zero =>
      intro fuel st _
      exact ⟨st, by simp, by simp, rfl, rfl⟩
  | succ n ih =>
      intro fuel st hq
      obtain ⟨st1, hstep, hiter, hrIdx, hsnap⟩ :=
        step_quiet env runId dl st (hq st.iter le_rfl (by omega))
      obtain ⟨st2, heq, hi2, hr2, hs2⟩ := ih fuel st1 (fun i hge hlt => hq i (by omega) (by omega))
      refine ⟨st2, ?_, by omega, by rw [hr2, hrIdx], ?_⟩
      · rw [show n + 1 + fuel = (n + fuel) + 1 from by omega, runPollAux_succ, hstep]
        exact heq
      · rw [hs2, hsnap, hiter]
        rfl

theorem snapAcc_snoc (env : PollEnv) : ∀ (n start : Nat) (acc : Option RunData),
    snapAcc env start (n + 1) acc = nextSnap env (start + n) (snapAcc env start n acc) := by
  intro n
  induction n with
  | zero => intro start acc; rfl
  | succ m ih =>
      intro start acc
      show snapAcc env (start + 1) (m + 1) (nextSnap env start acc) = _
      rw [ih]
      rw [show start + 1 + m = start + (m + 1) from by omega]
      rfl

theorem snapAcc_eq_lastObserved (env : PollEnv) : ∀ k : Nat,
    snapAcc env 0 (k + 1) Option.none = lastObservedSnap env k := by
  intro k
  induction k with
  | zero =>
      show nextSnap env 0 Option.none = statusSuccData (env.status 0)
      unfold nextSnap
      cases statusSuccData (env.status 0) <;> rfl
  | succ m ih =>
      rw [snapAcc_snoc, show (0 : Nat) + (m + 1) = m + 1 from by omega, ih]
      have hL : nextSnap env (m + 1) (lastObservedSnap env m) =
          match statusSuccData (env.status (m + 1)) with
          | some s => some s
          | Option.none => lastObservedSnap env m := rfl
      have hR : lastObservedSnap env (m + 1) =
          match statusSuccData (env.status (m + 1)) with
          | some s => some s
          | Option.none => lastObservedSnap env m := rfl
      rw [hL, hR]

theorem deadlineHit_le {d now : ℚ} (h : deadlineHit (some d) now = true) : d ≤ now := by
  simp only [deadlineHit] at h
  split at h
  · exact absurd h (by simp)
  · exact of_decide_eq_true h

theorem deadlineHit_false_lt {d now : ℚ} (hd : d ≠ 0) (h : deadlineHit (some d) now = false) :
    now < d := by
  simp only [deadlineHit] at h
  rw [if_neg hd] at h
  exact lt_of_not_le (of_decide_eq_false h)

theorem deadlineHit_of_le {d now : ℚ} (hd : d ≠ 0) (h : d ≤ now) :
    deadlineHit (some d) now = true := by
  simp [deadlineHit, hd, h]

/-- C3: against a status source that never reports a terminal state (and
never reports the run as gone), `wait_for_run_completion` with a positive
timeout `T` raises the timeout condition carrying the run id, `T`, and the
data of the last structurally successful status response (absent when none
occurred); the raise happens at the first deadline check whose clock
reading is at least `start + T` — hence at elapsed wall-clock ≥ T and never
earlier — and every earlier check saw elapsed time < T. -/
theorem claim_C3_timeout_exact (env : PollEnv) (runId : String) (T : Int) (fuel j : Nat)
    (hrid : runId ≠ "") (hT : 0 < T) (hstart : 0 ≤ env.start)
    (hne : ∀ i, statusTerminalSuccess (env.status i) = false ∧
      statusNotFound (env.status i) = false)
    (hj : env.start + (T : ℚ) ≤ env.clockNow j) (hfuel : j < fuel) :
    ∃ k st, k ≤ j ∧
      wait_for_run_completion env runId T fuel =
        PollOutcome.timeoutRaised runId T (lastObservedSnap env k) st ∧
      env.start + (T : ℚ) ≤ env.clockNow k ∧
      (∀ i, i < k → env.clockNow i < env.start + (T : ℚ)) ∧ st.iter = k := by
  have hTQ : (0 : ℚ) < (T : ℚ) := by exact_mod_cast hT
  have hdpos : (0 : ℚ) < env.start + (T : ℚ) := by linarith
  have hd0 : env.start + (T : ℚ) ≠ 0 := ne_of_gt hdpos
  have hex : ∃ i, deadlineHit (some (env.start + (T : ℚ))) (env.clockNow i) = true :=
    ⟨j, deadlineHit_of_le hd0 hj⟩
  have hkj : Nat.find hex ≤ j := Nat.find_le (deadlineHit_of_le hd0 hj)
  have hkspec := Nat.find_spec hex
  have hkmin : ∀ i, i < Nat.find hex →
      deadlineHit (some (env.start + (T : ℚ))) (env.clockNow i) = false := by
    intro i hi
    have := Nat.find_min hex hi
    rwa [Bool.not_eq_true] at this
  have hdl : mkDeadline env T = some (env.start + (T : ℚ)) := by
    unfold mkDeadline
    rw [if_neg (by omega)]
  have hquiet : ∀ i, initState.iter ≤ i → i < initState.iter + Nat.find hex →
      quietAt env (mkDeadline env T) i := by
    intro i _ hi
    rw [hdl]
    exact ⟨(hne i).1, (hne i).2, hkmin i (by simpa [initState] using hi)⟩
  obtain ⟨st1, heq, hiter, hrIdx, hsnap⟩ :=
    runPollAux_skip env runId T (mkDeadline env T) (Nat.find hex) (fuel - Nat.find hex)
      initState hquiet
  have hiter1 : st1.iter = Nat.find hex := by simpa [initState] using hiter
  obtain ⟨st2, hstep, hi2, hr2⟩ := step_deadline env runId (mkDeadline env T) st1
    (by rw [hiter1]; exact (hne (Nat.find hex)).1)
    (by rw [hiter1, hdl]; exact hkspec)
  refine ⟨Nat.find hex, st2, hkj, ?_, deadlineHit_le hkspec, ?_, by omega⟩
  · unfold wait_for_run_completion
    rw [if_neg hrid,
      show fuel = Nat.find hex + (fuel - Nat.find hex) from by omega, heq,
      show fuel - Nat.find hex = (fuel - Nat.find hex - 1) + 1 from by omega,
      runPollAux_succ, hstep]
    have : nextSnap env st1.iter st1.lastSnapshot = lastObservedSnap env (Nat.find hex) := by
      rw [hsnap, hiter1, ← snapAcc_eq_lastObserved]
      rw [snapAcc_snoc]
      simp [initState]
    rw [this]
  · intro i hi
    exact deadlineHit_false_lt hd0 (hkmin i hi)

theorem claim_C3_witness :
    ∃ k st, k ≤ 0 ∧
      wait_for_run_completion envRunningW "r1" 3 1 =
        PollOutcome.timeoutRaised "r1" 3 (lastObservedSnap envRunningW k) st ∧
      envRunningW.start + ((3 : Int) : ℚ) ≤ envRunningW.clockNow k ∧
      (∀ i, i < k → envRunningW.clockNow i < envRunningW.start + ((3 : Int) : ℚ)) ∧
      st.iter = k :=
  claim_C3_timeout_exact envRunningW "r1" 3 1 0 (by decide) (by decide) (by decide)
    (fun i => ⟨rfl, rfl⟩) (by norm_num [envRunningW]) (by decide)

/-- C2 counterexample: at a concrete run where the status response is
structurally unsuccessful with error text "Run not found" and the deadline
has already elapsed, the loop raises the timeout without issuing a single
`get_test_run_result` query (the final state records zero result queries,
`initState.rIdx = 0`), even though the result source stood ready to
resolve: the deadline check at line 213 precedes the early-terminal fetch
at lines 218-229, contradicting the claimed order. -/
theorem claim_C2_counterexample :
    wait_for_run_completion envNotFoundX "r1" 1 3 =
      PollOutcome.timeoutRaised "r1" 1 Option.none initState ∧
    statusNotFound (envNotFoundX.status 0) = true ∧
    resultFetchOk (envNotFoundX.result 0) = true ∧
    initState.rIdx = 0 := by
  refine ⟨?_, rfl, rfl, rfl⟩
  unfold wait_for_run_completion
  rw [if_neg (by decide), show (3 : Nat) = 2 + 1 from rfl, runPollAux_succ,
    step_fail_eq envNotFoundX "r1" (mkDeadline envNotFoundX 1) initState rfl,
    stepTail_timeout _ _ _ _ _ (by simp [mkDeadline, deadlineHit, envNotFoundX, initState])]
  rfl

/-- C2 (amended): when the status response of an iteration is structurally
unsuccessful with error text containing "not found" or "no active"
(case-insensitive) and the deadline has not yet elapsed at that
iteration's deadline check, the loop attempts exactly one
`get_test_run_result` query and no timeout is raised in that iteration;
the deadline check, however, precedes the early-terminal fetch, so an
elapsed deadline raises the timeout before the fetch is attempted. -/
theorem claim_C2_amended_early_terminal (env : PollEnv) (runId : String) (dl : Option ℚ)
    (st : LoopState)
    (hnf : statusNotFound (env.status st.iter) = true)
    (hdl : deadlineHit dl (env.clockNow st.iter) = false) :
    (step env runId dl st).state.rIdx = st.rIdx + 1 ∧
    ∀ s st', step env runId dl st ≠ StepRes.timeout s st' := by
  cases hs : env.status st.iter with
  | exn => rw [hs] at hnf; simp [statusNotFound] at hnf
  | nondict => rw [hs] at hnf; simp [statusNotFound] at hnf
  | resp success err msg data =>
      cases success with
      | true => rw [hs] at hnf; simp [statusNotFound] at hnf
      | false =>
          have he : earlyFlag (some (false, err, msg)) = true := by
            rw [hs] at hnf; exact hnf
          rw [step_fail_eq env runId dl st hs]
          unfold stepTail
          rw [hdl]
          simp only [Bool.false_eq_true, if_false, ite_false, he, if_true, ite_true]
          cases env.result st.rIdx with
          | exn => exact ⟨rfl, fun s st' h => StepRes.noConfusion h⟩
          | nondict =>
              refine ⟨by simp [StepRes.state], fun s st' h => StepRes.noConfusion h⟩
          | resp b e m d =>
              cases b with
              | true => exact ⟨rfl, fun s st' h => StepRes.noConfusion h⟩
              | false =>
                  refine ⟨by simp [StepRes.state], fun s st' h => StepRes.noConfusion h⟩

theorem claim_C2_amended_witness :
    (step envNotFoundX "r1" Option.none initState).state.rIdx = initState.rIdx + 1 ∧
    ∀ s st', step envNotFoundX "r1" Option.none initState ≠ StepRes.timeout s st' :=
  claim_C2_amended_early_terminal envNotFoundX "r1" Option.none initState rfl rfl

/-- C4: if the first `N` polls resolve nothing (no terminal success, no
not-found error, no elapsed deadline), the `N`-th poll is structurally
successful with a terminal state, and the first result query returns a
full result dict, then the poller returns that result — augmented with the
snapshot's state exactly when the result omits its own — its final state
shows the loop stopped at iteration `N` (so no further status polls
occur), and exactly one result query was issued for the one terminal
observation. -/
theorem claim_C4_terminal_success (env : PollEnv) (runId : String) (T : Int) (fuel N : Nat)
    (hrid : runId ≠ "") (hfuel : N < fuel)
    (hq : ∀ i, i < N → quietAt env (mkDeadline env T) i)
    {e m re rm : Option String} {d : Option RunData} {rd : RunData}
    (hs : env.status N = CallOutcome.resp true e m d)
    (ht : isTerminalSnap (d.getD {}) = true)
    (hr : env.result 0 = CallOutcome.resp true re rm (some rd)) :
    ∃ st, wait_for_run_completion env runId T fuel =
        PollOutcome.ok (setdefaultState rd (d.getD {}).state) st ∧
      st.iter = N ∧ st.rIdx = 1 ∧
      (rd.state = Option.none →
        (setdefaultState rd (d.getD {}).state).state = (d.getD {}).state) ∧
      (∀ s, rd.state = some s → (setdefaultState rd (d.getD {}).state).state = some s) := by
  obtain ⟨st1, heq, hiter, hrIdx, _⟩ :=
    runPollAux_skip env runId T (mkDeadline env T) N (fuel - N) initState
      (fun i _ hi => hq i (by simpa [initState] using hi))
  have hiter1 : st1.iter = N := by simpa [initState] using hiter
  have hrIdx1 : st1.rIdx = 0 := by simpa [initState] using hrIdx
  have hstep := step_terminal_ok env runId (mkDeadline env T) st1
    (by rw [hiter1]; exact hs) ht (by rw [hrIdx1]; exact hr)
  refine ⟨{ st1 with lastSnapshot := some (d.getD {}), rIdx := st1.rIdx + 1 }, ?_, by simp [hiter1],
    by simp [hrIdx1], ?_, ?_⟩
  · unfold wait_for_run_completion
    rw [if_neg hrid, show fuel = N + (fuel - N) from by omega, heq,
      show fuel - N = (fuel - N - 1) + 1 from by omega, runPollAux_succ, hstep]
    rfl
  · intro h
    simp [setdefaultState, h]
  · intro s h
    simp [setdefaultState, h]

theorem claim_C4_witness :
    ∃ st, wait_for_run_completion envOkW "r1" 600 1 =
        PollOutcome.ok (setdefaultState resultFull ((some snapCompleted).getD {}).state) st ∧
      st.iter = 0 ∧ st.rIdx = 1 ∧
      (resultFull.state = Option.none →
        (setdefaultState resultFull ((some snapCompleted).getD {}).state).state =
          ((some snapCompleted).getD {}).state) ∧
      (∀ s, resultFull.state = some s →
        (setdefaultState resultFull ((some snapCompleted).getD {}).state).state = some s) :=
  claim_C4_terminal_success envOkW "r1" 600 1 0 (by decide) (by decide)
    (fun i hi => absurd hi (by omega)) rfl (by decide) rfl

/-- C5 counterexample: after a terminal status observation, a transport
exception from the follow-up `get_test_run_result` query is not absorbed:
the poller raises (the result call at run_tests.py line 193 is outside the
try block), instead of returning the snapshot-derived value claimed. -/
theorem claim_C5_counterexample :
    wait_for_run_completion envRaisedX "r1" 600 2 =
      PollOutcome.raised ⟨0, 1, some snapCompleted, 0, []⟩ := rfl

/-- C5 (amended): after a terminal status observation, when the follow-up
`get_test_run_result` query returns a non-dict or a structurally
unsuccessful dict (but does not raise), the poller returns — without
raising — a value whose `mode`, `state` and `summary` equal the last
snapshot's fields, whose `runId` is the snapshot's (or the polled run id
when the snapshot lacks one), and whose `results` is absent. -/
theorem claim_C5_amended_fallback (env : PollEnv) (runId : String) (T : Int) (fuel N : Nat)
    (hrid : runId ≠ "") (hfuel : N < fuel)
    (hq : ∀ i, i < N → quietAt env (mkDeadline env T) i)
    {e m : Option String} {d : Option RunData} {o : CallOutcome}
    (hs : env.status N = CallOutcome.resp true e m d)
    (ht : isTerminalSnap (d.getD {}) = true)
    (hr : env.result 0 = o) (hexn : o ≠ CallOutcome.exn) (ho : resultFetchOk o = false) :
    ∃ st, wait_for_run_completion env runId T fuel =
        PollOutcome.ok (snapshotFallback (d.getD {}) runId) st ∧
      st.iter = N ∧ st.rIdx = 1 ∧
      (snapshotFallback (d.getD {}) runId).results = Option.none ∧
      (snapshotFallback (d.getD {}) runId).mode = (d.getD {}).mode ∧
      (snapshotFallback (d.getD {}) runId).state = (d.getD {}).state ∧
      (snapshotFallback (d.getD {}) runId).summary = (d.getD {}).summary ∧
      (snapshotFallback (d.getD {}) runId).runId = some (pyOr (d.getD {}).runId runId) := by
  obtain ⟨st1, heq, hiter, hrIdx, _⟩ :=
    runPollAux_skip env runId T (mkDeadline env T) N (fuel - N) initState
      (fun i _ hi => hq i (by simpa [initState] using hi))
  have hiter1 : st1.iter = N := by simpa [initState] using hiter
  have hrIdx1 : st1.rIdx = 0 := by simpa [initState] using hrIdx
  have hstep := step_terminal_fallback env runId (mkDeadline env T) st1
    (by rw [hiter1]; exact hs) ht (by rw [hrIdx1]; exact hr) hexn ho
  refine ⟨{ st1 with lastSnapshot := some (d.getD {}), rIdx := st1.rIdx + 1 }, ?_,
    by simp [hiter1], by simp [hrIdx1], rfl, rfl, rfl, rfl, rfl⟩
  unfold wait_for_run_completion
  rw [if_neg hrid, show fuel = N + (fuel - N) from by omega, heq,
    show fuel - N = (fuel - N - 1) + 1 from by omega, runPollAux_succ, hstep]

theorem claim_C5_amended_witness :
    ∃ st, wait_for_run_completion envFallbackW "r1" 600 1 =
        PollOutcome.ok (snapshotFallback ((some snapCompleted).getD {}) "r1") st ∧
      st.iter = 0 ∧ st.rIdx = 1 ∧
      (snapshotFallback ((some snapCompleted).getD {}) "r1").results = Option.none ∧
      (snapshotFallback ((some snapCompleted).getD {}) "r1").mode =
        ((some snapCompleted).getD {}).mode ∧
      (snapshotFallback ((some snapCompleted).getD {}) "r1").state =
        ((some snapCompleted).getD {}).state ∧
      (snapshotFallback ((some snapCompleted).getD {}) "r1").summary =
        ((some snapCompleted).getD {}).summary ∧
      (snapshotFallback ((some snapCompleted).getD {}) "r1").runId =
        some (pyOr ((some snapCompleted).getD {}).runId "r1") :=
  claim_C5_amended_fallback envFallbackW "r1" 600 1 0 (by decide) (by decide)
    (fun i hi => absurd hi (by omega)) rfl (by decide) rfl (fun h => CallOutcome.noConfusion h) rfl

theorem goodLogs_maybeLog (st : LoopState) (h : GoodLogs st) (now : ℚ) :
    GoodLogs (maybeLog now st) := by
  obtain ⟨hc, hh⟩ := h
  unfold maybeLog
  split
  · rename_i hle
    refine ⟨List.chain'_cons'.mpr ⟨?_, hc⟩, ?_⟩
    · intro b hb
      have hble := hh b hb
      have := add_le_add_right hble PROGRESS_LOG_INTERVAL
      exact le_trans this hle
    · intro hd hhd
      simp only [List.head?_cons, Option.some.injEq] at hhd
      subst hhd
      exact le_refl _
  · exact ⟨hc, hh⟩

theorem goodLogs_stepTail (env : PollEnv) (dl : Option ℚ)
    (rsp : Option (Bool × Option String × Option String)) (now : ℚ) (st : LoopState)
    (h : GoodLogs st) : GoodLogs (stepTail env dl rsp now st).state := by
  unfold stepTail
  split
  · exact h
  · split
    · cases env.result st.rIdx with
      | exn => exact h
      | nondict => exact goodLogs_maybeLog { st with rIdx := st.rIdx + 1 } h now
      | resp b e m d =>
          cases b with
          | true => exact h
          | false => exact goodLogs_maybeLog { st with rIdx := st.rIdx + 1 } h now
    · exact goodLogs_maybeLog st h now

theorem goodLogs_step (env : PollEnv) (runId : String) (dl : Option ℚ) (st : LoopState)
    (h : GoodLogs st) : GoodLogs (step env runId dl st).state := by
  cases hs : env.status st.iter with
  | exn =>
      rw [step_exn_eq env runId dl st hs]
      exact goodLogs_stepTail env dl Option.none (env.clockNow st.iter)
        (maybeLog (env.clockErr st.iter) st) (goodLogs_maybeLog st h (env.clockErr st.iter))
  | nondict =>
      rw [step_nondict_eq env runId dl st hs]
      exact goodLogs_stepTail env dl Option.none (env.clockNow st.iter) st h
  | resp success err msg data =>
      cases success with
      | true =>
          cases hterm : isTerminalSnap (data.getD {}) with
          | false =>
              rw [step_nonterminal_eq env runId dl st hs hterm]
              exact goodLogs_stepTail env dl (some (true, err, msg)) (env.clockNow st.iter)
                { st with lastSnapshot := some (data.getD {}) } h
          | true =>
              cases hr : env.result st.rIdx with
              | exn => rw [step_terminal_raised env runId dl st hs hterm hr]; exact h
              | nondict =>
                  rw [step_terminal_fallback env runId dl st hs hterm hr
                    (fun hco => CallOutcome.noConfusion hco) rfl]
                  exact h
              | resp b e m d =>
                  cases b with
                  | true => rw [step_terminal_ok env runId dl st hs hterm hr]; exact h
                  | false =>
                      rw [step_terminal_fallback env runId dl st hs hterm hr
                        (fun hco => CallOutcome.noConfusion hco) rfl]
                      exact h
      | false =>
          rw [step_fail_eq env runId dl st hs]
          exact goodLogs_stepTail env dl (some (false, err, msg)) (env.clockNow st.iter) st h

theorem goodLogs_runPollAux (env : PollEnv) (runId : String) (T : Int) (dl : Option ℚ) :
    ∀ (fuel : Nat) (st : LoopState), GoodLogs st →
      GoodLogs (runPollAux env runId T dl fuel st).state := by
  intro fuel
  induction fuel with
  | zero => intro st h; exact h
  | succ n ih =>
      intro st h
      rw [runPollAux_succ]
      have hstep := goodLogs_step env runId dl st h
      cases hres : step env runId dl st with
      | done d st' => rw [hres] at hstep; exact hstep
      | timeout s st' => rw [hres] at hstep; exact hstep
      | raised st' => rw [hres] at hstep; exact hstep
      | cont q st' =>
          rw [hres] at hstep
          exact ih st' hstep

/-- C6: a transport exception during a status poll is absorbed: when the
deadline has not elapsed, the iteration ends with a continue-and-sleep of
`POLL_INTERVAL_SECONDS` (0.5 s), issuing no result query, keeping the last
snapshot, and moving to the next poll; moreover, in every reachable final
state of the poller, any two adjacent emitted log timestamps are at least
`PROGRESS_LOG_INTERVAL` (5 s) apart — the failure log is throttled. -/
theorem claim_C6_transient_tolerance :
    (∀ (env : PollEnv) (runId : String) (dl : Option ℚ) (st : LoopState),
      env.status st.iter = CallOutcome.exn →
      deadlineHit dl (env.clockNow st.iter) = false →
      ∃ st', step env runId dl st = StepRes.cont POLL_INTERVAL_SECONDS st' ∧
        st'.rIdx = st.rIdx ∧ st'.iter = st.iter + 1 ∧
        st'.lastSnapshot = st.lastSnapshot) ∧
    (∀ (env : PollEnv) (runId : String) (T : Int) (fuel : Nat),
      wellSpacedLogs ((wait_for_run_completion env runId T fuel).state.logs)) := by
  constructor
  · intro env runId dl st hs hdl
    rw [step_exn_eq env runId dl st hs, stepTail_cont env dl Option.none _ _ hdl rfl]
    exact ⟨_, rfl, by simp, by simp, by simp⟩
  · intro env runId T fuel
    unfold wait_for_run_completion
    split
    · exact List.chain'_nil
    · have hinit : GoodLogs initState := ⟨List.chain'_nil, by intro hd h; simp [initState] at h⟩
      exact (goodLogs_runPollAux env runId T (mkDeadline env T) fuel initState hinit).1

theorem claim_C6_witness :
    (∃ st', step envExnW "r1" Option.none initState = StepRes.cont POLL_INTERVAL_SECONDS st' ∧
      st'.rIdx = initState.rIdx ∧ st'.iter = initState.iter + 1 ∧
      st'.lastSnapshot = initState.lastSnapshot) ∧
    wellSpacedLogs ((wait_for_run_completion envExnW "r1" 0 4).state.logs) :=
  ⟨claim_C6_transient_tolerance.1 envExnW "r1" Option.none initState rfl rfl,
   claim_C6_transient_tolerance.2 envExnW "r1" 0 4⟩

theorem stepTail_none_no_timeout (env : PollEnv)
    (rsp : Option (Bool × Option String × Option String)) (now : ℚ) (st : LoopState) :
    ∀ s st', stepTail env Option.none rsp now st ≠ StepRes.timeout s st' := by
  intro s st' h
  unfold stepTail at h
  rw [show deadlineHit Option.none now = false from rfl] at h
  simp only [Bool.false_eq_true, if_false, ite_false] at h
  split at h
  · split at h <;> exact StepRes.noConfusion h
  · exact StepRes.noConfusion h

theorem step_none_no_timeout (env : PollEnv) (runId : String) (st : LoopState) :
    ∀ s st', step env runId Option.none st ≠ StepRes.timeout s st' := by
  intro s st' h
  cases hs : env.status st.iter with
  | exn =>
      rw [step_exn_eq env runId Option.none st hs] at h
      exact stepTail_none_no_timeout env Option.none _ _ s st' h
  | nondict =>
      rw [step_nondict_eq env runId Option.none st hs] at h
      exact stepTail_none_no_timeout env Option.none _ _ s st' h
  | resp success err msg data =>
      cases success with
      | true =>
          cases hterm : isTerminalSnap (data.getD {}) with
          | false =>
              rw [step_nonterminal_eq env runId Option.none st hs hterm] at h
              exact stepTail_none_no_timeout env _ _ _ s st' h
          | true =>
              cases hr : env.result st.rIdx with
              | exn =>
                  rw [step_terminal_raised env runId Option.none st hs hterm hr] at h
                  exact StepRes.noConfusion h
              | nondict =>
                  rw [step_terminal_fallback env runId Option.none st hs hterm hr
                    (fun hco => CallOutcome.noConfusion hco) rfl] at h
                  exact StepRes.noConfusion h
              | resp b e m d =>
                  cases b with
                  | true =>
                      rw [step_terminal_ok env runId Option.none st hs hterm hr] at h
                      exact StepRes.noConfusion h
                  | false =>
                      rw [step_terminal_fallback env runId Option.none st hs hterm hr
                        (fun hco => CallOutcome.noConfusion hco) rfl] at h
                      exact StepRes.noConfusion h
      | false =>
          rw [step_fail_eq env runId Option.none st hs] at h
          exact stepTail_none_no_timeout env _ _ _ s st' h

theorem runPollAux_none_no_timeout (env : PollEnv) (runId : String) (T : Int) :
    ∀ (fuel : Nat) (st : LoopState) (rid : String) (T' : Int) (s : Option RunData)
      (st' : LoopState),
      runPollAux env runId T Option.none fuel st ≠ PollOutcome.timeoutRaised rid T' s st' := by
  intro fuel
  induction fuel with
  | zero => intro st rid T' s st' h; exact PollOutcome.noConfusion h
  | succ n ih =>
      intro st rid T' s st' h
      rw [runPollAux_succ] at h
      cases hres : step env runId Option.none st with
      | done d st2 => rw [hres] at h; exact PollOutcome.noConfusion h
      | timeout s2 st2 => exact step_none_no_timeout env runId st s2 st2 hres
      | raised st2 => rw [hres] at h; exact PollOutcome.noConfusion h
      | cont q st2 =>
          rw [hres] at h
          exact ih st2 rid T' s st' h

/-- C10: a zero (falsy) `timeout_seconds` arms no deadline: the timeout
condition can never be raised, whatever the status and result sources do;
and against a status source that never reports a terminal state or a
not-found error, the loop neither returns nor raises within any amount of
fuel — it is still polling after `fuel` iterations (one status query per
iteration), i.e. it polls indefinitely. -/
theorem claim_C10_zero_timeout (env : PollEnv) (runId : String) (fuel : Nat) :
    (∀ (rid : String) (T' : Int) (s : Option RunData) (st : LoopState),
      wait_for_run_completion env runId 0 fuel ≠ PollOutcome.timeoutRaised rid T' s st) ∧
    (runId ≠ "" →
      (∀ i, statusTerminalSuccess (env.status i) = false ∧
        statusNotFound (env.status i) = false) →
      ∃ st, wait_for_run_completion env runId 0 fuel = PollOutcome.fuelOut st ∧
        st.iter = fuel) := by
  constructor
  · intro rid T' s st h
    unfold wait_for_run_completion at h
    split at h
    · exact PollOutcome.noConfusion h
    · rw [show mkDeadline env 0 = Option.none from by simp [mkDeadline]] at h
      exact runPollAux_none_no_timeout env runId 0 fuel initState rid T' s st h
  · intro hrid hne
    have hquiet : ∀ i, initState.iter ≤ i → i < initState.iter + fuel →
        quietAt env (mkDeadline env 0) i := by
      intro i _ _
      refine ⟨(hne i).1, (hne i).2, ?_⟩
      rw [show mkDeadline env 0 = Option.none from by simp [mkDeadline]]
      rfl
    obtain ⟨st1, heq, hiter, _, _⟩ :=
      runPollAux_skip env runId 0 (mkDeadline env 0) fuel 0 initState hquiet
    refine ⟨st1, ?_, by simpa [initState] using hiter⟩
    unfold wait_for_run_completion
    rw [if_neg hrid, show fuel = fuel + 0 from by omega, heq]
    rfl

theorem claim_C10_witness :
    (wait_for_run_completion envRunningW "r1" 0 7 ≠
      PollOutcome.timeoutRaised "r1" 0 Option.none initState) ∧
    (∃ st, wait_for_run_completion envRunningW "r1" 0 7 = PollOutcome.fuelOut st ∧
      st.iter = 7) :=
  ⟨(claim_C10_zero_timeout envRunningW "r1" 7).1 "r1" 0 Option.none initState,
   (claim_C10_zero_timeout envRunningW "r1" 7).2 (by decide) (fun i => ⟨rfl, rfl⟩)⟩

end UnityMcp
